import Mathlib

/-!
Verification of `convert_sprite.py`, a PNG → RGB565 sprite converter.

The development shallowly embeds the program: the pixel packer
`rgb888_to_rgb565`, the hex-color parser `hex_to_rgb`, the transparency
resolver, the per-frame binary emitter, and the control flow of
`convert_png_to_bin` / `main` (decode step, rows check, color resolution,
per-frame file writes) as a pure function producing an event trace, an
exit code and an error message.  Machine integers are modelled as `Nat`;
the image raster is a width, a height and a pixel accessor.
-/

/-- A decoded raster: width, height, and a pixel accessor returning
`(r, g, b, a)` for coordinates `(x, y)` (the result of `Image.open`
followed by `convert RGBA`). -/
structure Raster where
  width : Nat
  height : Nat
  pixel : Nat → Nat → Nat × Nat × Nat × Nat

/-- `rgb888_to_rgb565` from the source: shift each channel down and mask
to 5/6/5 bits, then combine as bits 15-11 = R, 10-5 = G, 4-0 = B. -/
def rgb888_to_rgb565 (r g b : Nat) : Nat :=
  let r5 := (r >>> 3) &&& 0x1F
  let g6 := (g >>> 2) &&& 0x3F
  let b5 := (b >>> 3) &&& 0x1F
  (r5 <<< 11) ||| (g6 <<< 5) ||| b5

/-- Value of one hexadecimal digit character, as accepted by Python's
`int(s, 16)` for a plain digit.  (Python's `int` additionally tolerates
surrounding whitespace and a sign; no claim here depends on those inputs,
so they are not modelled.) -/
def hexDigitVal (c : Char) : Option Nat :=
  if '0' ≤ c ∧ c ≤ '9' then some (c.toNat - '0'.toNat)
  else if 'a' ≤ c ∧ c ≤ 'f' then some (c.toNat - 'a'.toNat + 10)
  else if 'A' ≤ c ∧ c ≤ 'F' then some (c.toNat - 'A'.toNat + 10)
  else none

/-- Whitespace characters Python's `int` strips around a numeric literal,
restricted to ASCII: space, tab, LF, VT, FF, CR (codes 32, 9, 10, 11, 12,
13).  Other ASCII control characters, `\x1c`-`\x1f` included, make
`int(s, 16)` raise. -/
def pySpace (c : Char) : Bool :=
  c == ' ' || c == '\t' || c == '\n' || c.toNat == 11 || c.toNat == 12 || c == '\r'

/-- `int(s, 16)` on a slice of at most two characters, exactly as Python
evaluates it on ASCII input with a nonnegative result: the empty string
raises; a single character must be a hex digit; two characters may be two
hex digits, `+` before a digit, whitespace before a digit, or a digit
before whitespace.  Two cases Python parses successfully fall outside
this byte-valued color model and are mapped to `none`: `-` before a digit
(a negative value) and non-ASCII decimal digits or whitespace.  For that
reason theorems about parse failure quantify over `hexRejects` below,
whose truth implies a genuine `ValueError`, instead of quantifying over
`pyIntHex` returning `none`. -/
def pyIntHex (cs : List Char) : Option Nat :=
  match cs with
  | [] => none
  | [c] => hexDigitVal c
  | [c1, c2] =>
    match hexDigitVal c1, hexDigitVal c2 with
    | some d1, some d2 => some (d1 * 16 + d2)
    | some d1, none => if pySpace c2 then some d1 else none
    | none, some d2 => if c1 == '+' || pySpace c1 then some d2 else none
    | none, none => none
  | _ => none

/-- `hex_to_rgb` from the source: `lstrip('#')` (drop every leading `#`)
then `int(hex_color[i:i+2], 16)` for `i` in `(0, 2, 4)`.  `none` models
the `ValueError` Python raises on a malformed slice; per the note on
`pyIntHex`, a `none` here is only guaranteed to coincide with a real
`ValueError` when `hexRejects` holds, while every `some` coincides with a
real successful parse of the same three byte values. -/
def hex_to_rgb (s : String) : Option (Nat × Nat × Nat) :=
  let cs := s.toList.dropWhile (fun c => c = '#')
  match pyIntHex ((cs.drop 0).take 2), pyIntHex ((cs.drop 2).take 2),
        pyIntHex ((cs.drop 4).take 2) with
  | some r, some g, some b => some (r, g, b)
  | _, _, _ => none

/-- A character on which `int(s, 16)` always raises: an ASCII character
that is not a hexadecimal digit, not a sign, not an underscore and not
whitespace.  No successful parse of a string of at most two characters
can contain one, whatever the neighbouring character is (`x` can only
start a digit sequence as part of a `0x` prefix, which needs a third
character). -/
def fatalChar (c : Char) : Bool :=
  decide (c.toNat < 128) && (hexDigitVal c).isNone &&
    !(c == '+') && !(c == '-') && !(c == '_') && !(pySpace c)

/-- The three two-character slices `hex_to_rgb` reads at offsets 0, 2, 4
of the `#`-stripped string. -/
def hexSlices (s : String) : List (List Char) :=
  let cs := s.toList.dropWhile (fun c => c = '#')
  [(cs.drop 0).take 2, (cs.drop 2).take 2, (cs.drop 4).take 2]

/-- Sufficient condition for the program's color parse to raise
`ValueError`: one of the three slices is empty (the stripped string has
fewer than five characters) or contains a `fatalChar`. -/
def hexRejects (s : String) : Bool :=
  (hexSlices s).any (fun sl => sl.isEmpty || sl.any fatalChar)

/-- The inline transparency rule of the conversion loop: pixels with
`a < 128` are replaced by the substitution color. -/
def resolvePixel (r g b a : Nat) (tc : Nat × Nat × Nat) : Nat × Nat × Nat :=
  if a < 128 then tc else (r, g, b)

/-- The 16-bit word emitted for the pixel at `(x, y)`: transparency
resolution followed by RGB565 packing. -/
def pixelWord (img : Raster) (x y : Nat) (tc : Nat × Nat × Nat) : Nat :=
  let (r, g, b, a) := img.pixel x y
  let (r2, g2, b2) := resolvePixel r g b a tc
  rgb888_to_rgb565 r2 g2 b2

/-- The two bytes `struct.pack` writes for one pixel, most significant
byte first.  (`rgb888_to_rgb565` always yields a value below `2 ^ 16`, so
`struct.pack` of format `>H` never fails; the split is exact.) -/
def pixelBytes (img : Raster) (x y : Nat) (tc : Nat × Nat × Nat) : List Nat :=
  [pixelWord img x y tc / 256, pixelWord img x y tc % 256]

/-- The byte sequence written for one frame: `y` outer loop over
`0..frame_height`, `x` inner loop over `0..frame_width`, appending the two
bytes of each pixel.  `top` is the absolute row of the frame's region, so
`frame.getpixel((x, y))` is `img.pixel x (top + y)`. -/
def emitFrame (img : Raster) (top fw fh : Nat) (tc : Nat × Nat × Nat) : List Nat :=
  (List.range fh).foldl
    (fun acc y => (List.range fw).foldl
      (fun acc2 x => acc2 ++ pixelBytes img x (top + y) tc) acc) []

/-- The crop regions of the frame loop: for `frame_idx` in `0..rows`,
`top = frame_idx * frame_height`, `bottom = top + frame_height`, region
`(0, top, frame_width, bottom)` with `frame_height = height / rows`. -/
def frameRegions (w h rows : Nat) : List (Nat × Nat × Nat × Nat) :=
  (List.range rows).map (fun i => (0, i * (h / rows), w, i * (h / rows) + h / rows))

/-- Observable steps of a run: the image-decode step (`Image.open` plus
`convert RGBA`) and each completed file write. -/
inductive Event where
  | decodeImage : Event
  | wroteFile : String → List Nat → Event
deriving DecidableEq

/-- Outcome of a run: ordered event trace, process exit code, and the
error message printed on failure (if any). -/
structure RunResult where
  trace : List Event
  exitCode : Nat
  errorMsg : Option String
deriving DecidableEq

/-- Resolution of the `transparent_color` argument inside
`convert_png_to_bin`: `None` defaults to sky blue `(48, 144, 160)`, a
string goes through `hex_to_rgb` (whose failure is a `ValueError`). -/
def resolveColor (transparent_color : Option String) : Option (Nat × Nat × Nat) :=
  match transparent_color with
  | none => some (48, 144, 160)
  | some s => hex_to_rgb s

/-- `convert_png_to_bin` from the source, with PNG decoding abstracted as
an `Option Raster` argument (`none` models `Image.open` raising
`FileNotFoundError`).  The order of steps follows the source: decode
first, then the `rows < 1` check, then frame dimensions, then color
resolution, then one file write per frame.  Exceptions reach the
`except` handlers, which print an error and `sys.exit(1)`. -/
def convert_png_to_bin (input_png : String) (decoded : Option Raster)
    (output_base : String) (rows : Int) (transparent_color : Option String) :
    RunResult :=
  match decoded with
  | none =>
    { trace := [], exitCode := 1,
      errorMsg := some ("Error: File '" ++ input_png ++ "' not found") }
  | some img =>
    if rows < 1 then
      { trace := [Event.decodeImage], exitCode := 1,
        errorMsg := some "Error: Number of rows must be at least 1" }
    else
      let rowsN := rows.toNat
      let frame_height := img.height / rowsN
      let frame_width := img.width
      match resolveColor transparent_color with
      | none =>
        { trace := [Event.decodeImage], exitCode := 1,
          errorMsg := some "Error: invalid literal for int() with base 16" }
      | some tc =>
        { trace := Event.decodeImage ::
            (List.range rowsN).map (fun i =>
              Event.wroteFile (output_base ++ toString i ++ ".bin")
                (emitFrame img (i * frame_height) frame_width frame_height tc)),
          exitCode := 0, errorMsg := none }

/-- `input.rsplit('.', 1)[0]`: everything before the last `.`, or the
whole string when there is none. -/
def pyRsplitExt (s : String) : String :=
  match s.toList.reverse.dropWhile (fun c => c ≠ '.') with
  | [] => s
  | _ :: rest => String.mk rest.reverse

/-- Output base path chosen by `main`: the `--output` argument when
given, else `"data/" ++ input.rsplit('.', 1)[0]`. -/
def mainOutputBase (input : String) (output : Option String) : String :=
  match output with
  | some o => o
  | none => "data/" ++ pyRsplitExt input

/-- `main` after argument parsing: compute the output base and call
`convert_png_to_bin`. -/
def mainRun (input : String) (decoded : Option Raster) (rows : Int)
    (output : Option String) (background : Option String) : RunResult :=
  convert_png_to_bin input decoded (mainOutputBase input output) rows background

/-- The files a run wrote, in order, with their contents. -/
def writtenFiles (res : RunResult) : List (String × List Nat) :=
  res.trace.filterMap (fun e =>
    match e with
    | Event.wroteFile n b => some (n, b)
    | _ => none)

/-- A concrete opaque 4 × 4 raster used for closed-theorem evaluation. -/
def demoRaster : Raster :=
  { width := 4, height := 4, pixel := fun _ _ => (10, 20, 30, 255) }

/- ### Helper lemmas -/

lemma and_31_of_lt : ∀ k < 32, k &&& 31 = k := by decide

lemma and_63_of_lt : ∀ k < 64, k &&& 63 = k := by decide

set_option maxHeartbeats 1000000 in
lemma pack_bound_table :
    ∀ a < 32, ∀ b < 64, ∀ c < 32, ((a <<< 11) ||| (b <<< 5) ||| c) ≤ 65535 := by
  decide

lemma shiftRight3_lt (r : Nat) (hr : r ≤ 255) : r >>> 3 < 32 := by
  rw [Nat.shiftRight_eq_div_pow]
  omega

lemma shiftRight2_lt (g : Nat) (hg : g ≤ 255) : g >>> 2 < 64 := by
  rw [Nat.shiftRight_eq_div_pow]
  omega

/- ### C1: the pixel packer -/

/-- C1: for all channel values in `[0, 255]`, `rgb888_to_rgb565` computes
exactly `(r >>> 3) <<< 11 ||| (g >>> 2) <<< 5 ||| (b >>> 3)` (the masks
are identities on that domain), its result lies in `[0, 0xFFFF]`, and the
five sample values of the spec hold. -/
theorem pack_correct (r g b : Nat) (hr : r ≤ 255) (hg : g ≤ 255) (hb : b ≤ 255) :
    rgb888_to_rgb565 r g b = ((r >>> 3) <<< 11) ||| ((g >>> 2) <<< 5) ||| (b >>> 3)
    ∧ rgb888_to_rgb565 r g b ≤ 0xFFFF
    ∧ rgb888_to_rgb565 255 255 255 = 0xFFFF
    ∧ rgb888_to_rgb565 0 0 0 = 0x0000
    ∧ rgb888_to_rgb565 248 0 0 = 0xF800
    ∧ rgb888_to_rgb565 0 252 0 = 0x07E0
    ∧ rgb888_to_rgb565 0 0 248 = 0x001F := by
  refine ⟨?_, ?_, by decide, by decide, by decide, by decide, by decide⟩
  · unfold rgb888_to_rgb565
    rw [and_31_of_lt _ (shiftRight3_lt r hr), and_63_of_lt _ (shiftRight2_lt g hg),
      and_31_of_lt _ (shiftRight3_lt b hb)]
  · unfold rgb888_to_rgb565
    have h1 : (r >>> 3) &&& 0x1F < 32 := Nat.lt_succ_of_le Nat.and_le_right
    have h2 : (g >>> 2) &&& 0x3F < 64 := Nat.lt_succ_of_le Nat.and_le_right
    have h3 : (b >>> 3) &&& 0x1F < 32 := Nat.lt_succ_of_le Nat.and_le_right
    exact pack_bound_table _ h1 _ h2 _ h3

/-- Witness for C1 at `(r, g, b) = (48, 200, 7)`. -/
theorem pack_correct_witness :
    rgb888_to_rgb565 48 200 7 = ((48 >>> 3) <<< 11) ||| ((200 >>> 2) <<< 5) ||| (7 >>> 3)
    ∧ rgb888_to_rgb565 48 200 7 ≤ 0xFFFF := by
  have h := pack_correct 48 200 7 (by decide) (by decide) (by decide)
  exact ⟨h.1, h.2.1⟩

/- ### C3: the transparency resolver -/

/-- C3: the conversion loop substitutes the configured color exactly when
`a < 128` and keeps the pixel's own color otherwise; in particular
`a = 127` substitutes and `a = 128` keeps. -/
theorem transparency_resolver (r g b : Nat) (tc : Nat × Nat × Nat) :
    (∀ a, a < 128 → resolvePixel r g b a tc = tc)
    ∧ (∀ a, 128 ≤ a → resolvePixel r g b a tc = (r, g, b))
    ∧ resolvePixel r g b 127 tc = tc
    ∧ resolvePixel r g b 128 tc = (r, g, b) := by
  refine ⟨fun a ha => ?_, fun a ha => ?_, ?_, ?_⟩ <;>
    simp [resolvePixel] <;> omega

/-- Witness for C3 at `(r, g, b) = (1, 2, 3)`, `tc = (48, 144, 160)`. -/
theorem transparency_resolver_witness :
    resolvePixel 1 2 3 127 (48, 144, 160) = (48, 144, 160)
    ∧ resolvePixel 1 2 3 128 (48, 144, 160) = (1, 2, 3) := by
  have h := transparency_resolver 1 2 3 (48, 144, 160)
  exact ⟨h.2.2.1, h.2.2.2⟩

/- ### C6: the default substitution color -/

/-- C6 counterexample: packing the default color `(48, 144, 160)` does
not give `0x30AA`. -/
theorem default_color_pack_ne : rgb888_to_rgb565 48 144 160 ≠ 0x30AA := by
  decide

/-- C6 amended: packing the default substitution color `#3090A0` =
`(48, 144, 160)` yields `0x3494` (`r5 = 6`, `g6 = 36`, `b5 = 20`). -/
theorem default_color_pack : rgb888_to_rgb565 48 144 160 = 0x3494 := by
  decide

/- ### C2: emitted frame bytes -/

lemma foldl_append_flatMap (l : List Nat) (g : Nat → List Nat) (init : List Nat) :
    l.foldl (fun acc a => acc ++ g a) init = init ++ l.flatMap g := by
  induction l generalizing init with
  | nil => simp
  | cons a l ih => simp [List.foldl_cons, ih, List.flatMap_cons]

lemma emitFrame_eq_flatMap (img : Raster) (top fw fh : Nat) (tc : Nat × Nat × Nat) :
    emitFrame img top fw fh tc
      = (List.range fh).flatMap
          (fun y => (List.range fw).flatMap (fun x => pixelBytes img x (top + y) tc)) := by
  unfold emitFrame
  have hfun : (fun (acc : List Nat) (y : Nat) =>
        (List.range fw).foldl (fun acc2 x => acc2 ++ pixelBytes img x (top + y) tc) acc)
      = fun acc y => acc ++ (List.range fw).flatMap (fun x => pixelBytes img x (top + y) tc) := by
    funext acc y
    exact foldl_append_flatMap _ _ _
  rw [hfun, foldl_append_flatMap]
  simp

lemma flatMap_range_length (c : Nat) (f : Nat → List Nat) (hc : ∀ i, (f i).length = c) :
    ∀ n, ((List.range n).flatMap f).length = n * c := by
  intro n
  induction n with
  | zero => simp
  | succ n ih =>
    rw [List.range_succ, List.flatMap_append]
    simp only [List.length_append, ih, List.flatMap_cons, List.flatMap_nil,
      List.append_nil, hc]
    ring

lemma flatMap_range'_getElem (f : Nat → List Nat) (c : Nat) (hc : ∀ i, (f i).length = c) :
    ∀ (n s j r : Nat), j < n → r < c →
      ((List.range' s n).flatMap f)[j * c + r]? = (f (s + j))[r]? := by
  intro n
  induction n with
  | zero => omega
  | succ n ih =>
    intro s j r hj hr
    rw [List.range'_succ, List.flatMap_cons]
    cases j with
    | zero =>
      rw [List.getElem?_append_left (by rw [hc]; omega)]
      simp
    | succ j =>
      rw [List.getElem?_append_right (by rw [hc]; exact le_trans (by ring_nf; omega) le_rfl)]
      have harith : (j + 1) * c + r - (f s).length = j * c + r := by rw [hc]; ring_nf; omega
      rw [harith, ih (s + 1) j r (by omega) hr]
      have : s + 1 + j = s + (j + 1) := by omega
      rw [this]

/-- C2: the byte sequence of a frame has length exactly
`frame_width * frame_height * 2`, and the two bytes at offset
`2 * (y * frame_width + x)` are the most-significant and least-significant
bytes of the packed word of pixel `(x, y)` — row-major order, big endian. -/
theorem emit_layout (img : Raster) (top fw fh : Nat) (tc : Nat × Nat × Nat) :
    (emitFrame img top fw fh tc).length = fw * fh * 2
    ∧ ∀ y x, y < fh → x < fw →
        (emitFrame img top fw fh tc)[2 * (y * fw + x)]?
            = some (pixelWord img x (top + y) tc / 256)
        ∧ (emitFrame img top fw fh tc)[2 * (y * fw + x) + 1]?
            = some (pixelWord img x (top + y) tc % 256) := by
  have hpb : ∀ x y, (pixelBytes img x y tc).length = 2 := fun _ _ => rfl
  have hrow : ∀ y, ((List.range fw).flatMap (fun x => pixelBytes img x (top + y) tc)).length
      = fw * 2 := by
    intro y
    exact flatMap_range_length 2 _ (fun i => hpb i (top + y)) fw
  constructor
  · rw [emitFrame_eq_flatMap, flatMap_range_length (fw * 2) _ hrow fh]
    ring
  · intro y x hy hx
    have houter : ∀ r, r < fw * 2 →
        (emitFrame img top fw fh tc)[y * (fw * 2) + r]?
          = ((List.range fw).flatMap (fun x => pixelBytes img x (top + y) tc))[r]? := by
      intro r hrlt
      rw [emitFrame_eq_flatMap, List.range_eq_range']
      have h := flatMap_range'_getElem
        (fun y => (List.range fw).flatMap (fun x => pixelBytes img x (top + y) tc))
        (fw * 2) hrow fh 0 y r hy hrlt
      simpa using h
    have hinner : ∀ r, r < 2 →
        ((List.range fw).flatMap (fun x => pixelBytes img x (top + y) tc))[x * 2 + r]?
          = (pixelBytes img x (top + y) tc)[r]? := by
      intro r hrlt
      rw [List.range_eq_range']
      have h := flatMap_range'_getElem
        (fun x => pixelBytes img x (top + y) tc) 2 (fun i => hpb i (top + y))
        fw 0 x r hx hrlt
      simpa using h
    constructor
    · have hi : 2 * (y * fw + x) = y * (fw * 2) + (x * 2 + 0) := by ring
      rw [hi, houter (x * 2 + 0) (by omega), hinner 0 (by omega)]
      rfl
    · have hi : 2 * (y * fw + x) + 1 = y * (fw * 2) + (x * 2 + 1) := by ring
      rw [hi, houter (x * 2 + 1) (by omega), hinner 1 (by omega)]
      rfl

/-- Witness for C2 on the demo raster with `top = 0`, `fw = fh = 2`. -/
theorem emit_layout_witness :
    (emitFrame demoRaster 0 2 2 (48, 144, 160)).length = 2 * 2 * 2
    ∧ (emitFrame demoRaster 0 2 2 (48, 144, 160))[2 * (1 * 2 + 1)]?
        = some (pixelWord demoRaster 1 (0 + 1) (48, 144, 160) / 256) := by
  have h := emit_layout demoRaster 0 2 2 (48, 144, 160)
  exact ⟨h.1, (h.2 1 1 (by decide) (by decide)).1⟩

/- ### C4: the sheet splitter -/

/-- C4: the splitter produces exactly `rows` regions; region `i` is
`(0, i * fh, w, (i + 1) * fh)` with `fh = h / rows` (truncating), each of
width `w` and height `fh`, top-to-bottom; for `h = 100`, `rows = 3`,
`fh = 33` and pixel row 99 lies in no region. -/
theorem frame_split (w h rows : Nat) (hrows : 1 ≤ rows) :
    (frameRegions w h rows).length = rows
    ∧ (∀ i, i < rows →
        (frameRegions w h rows)[i]? = some (0, i * (h / rows), w, (i + 1) * (h / rows)))
    ∧ (∀ reg ∈ frameRegions w h rows, reg.2.2.1 = w ∧ reg.2.2.2 - reg.2.1 = h / rows)
    ∧ (100 : Nat) / 3 = 33
    ∧ (∀ reg ∈ frameRegions w 100 3, ¬(reg.2.1 ≤ 99 ∧ 99 < reg.2.2.2)) := by
  refine ⟨by simp [frameRegions], ?_, ?_, by decide, ?_⟩
  · intro i hi
    rw [frameRegions, List.getElem?_map, List.getElem?_range hi]
    simp [Nat.succ_mul]
  · intro reg hreg
    rw [frameRegions, List.mem_map] at hreg
    obtain ⟨i, _, rfl⟩ := hreg
    refine ⟨rfl, ?_⟩
    show i * (h / rows) + h / rows - i * (h / rows) = h / rows
    exact Nat.add_sub_cancel_left _ _
  · intro reg hreg
    rw [frameRegions, List.mem_map] at hreg
    obtain ⟨i, hi, rfl⟩ := hreg
    rw [List.mem_range] at hi
    simp only [not_and, not_lt]
    intro h1
    omega

/-- Witness for C4 at `w = 7`, `h = 100`, `rows = 3`. -/
theorem frame_split_witness :
    (frameRegions 7 100 3).length = 3
    ∧ (frameRegions 7 100 3)[2]? = some (0, 2 * (100 / 3), 7, (2 + 1) * (100 / 3)) := by
  have h := frame_split 7 100 3 (by decide)
  exact ⟨h.1, h.2.1 2 (by decide)⟩

/- ### Run-level helpers -/

lemma emitFrame_zero (img : Raster) (top fw : Nat) (tc : Nat × Nat × Nat) :
    emitFrame img top fw 0 tc = [] := rfl

lemma filterMap_all_some {α β : Type} (g : α → Option β) (f : α → β)
    (h : ∀ a, g a = some (f a)) : ∀ l : List α, l.filterMap g = l.map f := by
  intro l
  induction l with
  | nil => rfl
  | cons a l ih => rw [List.filterMap_cons, h a, List.map_cons, ih]

lemma writtenFiles_trace_map {α : Type} (l : List α) (name : α → String)
    (bytes : α → List Nat) (ec : Nat) (em : Option String) :
    writtenFiles
        { trace := Event.decodeImage :: l.map (fun i => Event.wroteFile (name i) (bytes i)),
          exitCode := ec, errorMsg := em }
      = l.map (fun i => (name i, bytes i)) := by
  simp only [writtenFiles, List.filterMap_cons, List.filterMap_map]
  exact filterMap_all_some _ _ (fun a => rfl) l

lemma convert_success_eq (inp base : String) (img : Raster) (rows : Int)
    (bg : Option String) (tc : Nat × Nat × Nat) (hrows : 1 ≤ rows)
    (htc : resolveColor bg = some tc) :
    convert_png_to_bin inp (some img) base rows bg =
      { trace := Event.decodeImage ::
          (List.range rows.toNat).map (fun i =>
            Event.wroteFile (base ++ toString i ++ ".bin")
              (emitFrame img (i * (img.height / rows.toNat)) img.width
                (img.height / rows.toNat) tc)),
        exitCode := 0, errorMsg := none } := by
  simp only [convert_png_to_bin]
  rw [if_neg (by omega)]
  simp only [htc]

/- ### C7: the rows check -/

/-- C7: with the image decoded, every `rows < 1` makes the run exit
non-zero, printing a message that reports "rows must be at least 1", with
no file written. -/
theorem rows_below_one (inp base : String) (img : Raster) (rows : Int)
    (bg : Option String) (hrows : rows < 1) :
    (convert_png_to_bin inp (some img) base rows bg).exitCode ≠ 0
    ∧ (∃ s, (convert_png_to_bin inp (some img) base rows bg).errorMsg
        = some (s ++ "rows must be at least 1"))
    ∧ writtenFiles (convert_png_to_bin inp (some img) base rows bg) = [] := by
  simp only [convert_png_to_bin]
  rw [if_pos hrows]
  exact ⟨one_ne_zero, ⟨"Error: Number of ", rfl⟩, rfl⟩

/-- Witness for C7 at `rows = 0`. -/
theorem rows_below_one_witness :
    (convert_png_to_bin "a.png" (some demoRaster) "data/a" 0 none).exitCode ≠ 0
    ∧ (∃ s, (convert_png_to_bin "a.png" (some demoRaster) "data/a" 0 none).errorMsg
        = some (s ++ "rows must be at least 1"))
    ∧ writtenFiles (convert_png_to_bin "a.png" (some demoRaster) "data/a" 0 none) = [] :=
  rows_below_one "a.png" "data/a" demoRaster 0 none (by decide)

/- ### C5: malformed --bg -/

/-- C5 counterexample: with `--bg ZZZZZZ` the run does exit non-zero, but
the decode step appears in its trace: the configuration error arises only
after image decoding, refuting "before any image decoding occurs". -/
theorem bg_invalid_counterexample :
    (convert_png_to_bin "test.png" (some demoRaster) "data/test" 1 (some "ZZZZZZ")).exitCode = 1
    ∧ Event.decodeImage ∈
        (convert_png_to_bin "test.png" (some demoRaster) "data/test" 1 (some "ZZZZZZ")).trace := by
  decide

lemma fatalChar_spec (c : Char) (h : fatalChar c = true) :
    hexDigitVal c = none ∧ (c == '+') = false ∧ pySpace c = false := by
  simp only [fatalChar, Bool.and_eq_true, Bool.not_eq_true',
    Option.isNone_iff_eq_none, decide_eq_true_eq] at h
  exact ⟨h.1.1.1.1.2, h.1.1.1.2, h.2⟩

lemma pyIntHex_none_of_bad (sl : List Char)
    (h : sl.isEmpty = true ∨ sl.any fatalChar = true) (hlen : sl.length ≤ 2) :
    pyIntHex sl = none := by
  rcases sl with _ | ⟨c1, _ | ⟨c2, _ | ⟨c3, rest⟩⟩⟩
  · rfl
  · rcases h with h | h
    · simp at h
    · simp only [List.any_cons, List.any_nil, Bool.or_false] at h
      obtain ⟨hd1, -, -⟩ := fatalChar_spec c1 h
      simp [pyIntHex, hd1]
  · rcases h with h | h
    · simp at h
    · simp only [List.any_cons, List.any_nil, Bool.or_false, Bool.or_eq_true] at h
      rcases h with h | h
      · obtain ⟨hd1, hplus, hsp⟩ := fatalChar_spec c1 h
        cases hd2 : hexDigitVal c2 <;> simp [pyIntHex, hd1, hd2, hplus, hsp]
      · obtain ⟨hd2, -, hsp⟩ := fatalChar_spec c2 h
        cases hd1 : hexDigitVal c1 <;> simp [pyIntHex, hd1, hd2, hsp]
  · simp at hlen

lemma hexRejects_hex_to_rgb_none (s : String) (h : hexRejects s = true) :
    hex_to_rgb s = none := by
  have hlen : ∀ l : List Char, (l.take 2).length ≤ 2 := fun l => by
    rw [List.length_take]; exact min_le_left _ _
  simp only [hexRejects, hexSlices, List.any_cons, List.any_nil, Bool.or_false,
    Bool.or_eq_true, List.drop_zero] at h
  unfold hex_to_rgb
  simp only [List.drop_zero]
  rcases h with h | h | h
  · rw [pyIntHex_none_of_bad _ h (hlen _)]
  · have h2 := pyIntHex_none_of_bad _ h (hlen _)
    cases hA : pyIntHex ((s.toList.dropWhile (fun c => c = '#')).take 2) <;>
      rw [h2]
  · have h3 := pyIntHex_none_of_bad _ h (hlen _)
    cases hA : pyIntHex ((s.toList.dropWhile (fun c => c = '#')).take 2)
    · rfl
    · cases hB : pyIntHex (((s.toList.dropWhile (fun c => c = '#')).drop 2).take 2) <;>
        rw [h3]

/-- C5 amended: for every `--bg` whose color string is certainly
malformed — after stripping the leading `#`s, one of the three
two-character slices at offsets 0, 2, 4 is empty (fewer than five
characters remain) or contains an ASCII character that is no hex digit,
sign, underscore or whitespace, as in `ZZZZZZ` — a run with a decoded
image and valid rows exits non-zero and writes no file, but only after
the image-decode step, which is present in the trace. -/
theorem bg_invalid_after_decode (inp base : String) (img : Raster) (rows : Int)
    (s : String) (hrows : 1 ≤ rows) (hs : hexRejects s = true) :
    (convert_png_to_bin inp (some img) base rows (some s)).exitCode ≠ 0
    ∧ Event.decodeImage ∈ (convert_png_to_bin inp (some img) base rows (some s)).trace
    ∧ writtenFiles (convert_png_to_bin inp (some img) base rows (some s)) = [] := by
  have hnone : hex_to_rgb s = none := hexRejects_hex_to_rgb_none s hs
  simp only [convert_png_to_bin]
  rw [if_neg (by omega)]
  simp only [resolveColor, hnone]
  exact ⟨one_ne_zero, List.mem_singleton.mpr rfl, rfl⟩

/-- Witness for C5's amended theorem at `--bg QQQQQQ`, `rows = 2`. -/
theorem bg_invalid_after_decode_witness :
    (convert_png_to_bin "img.png" (some demoRaster) "data/img" 2 (some "QQQQQQ")).exitCode ≠ 0
    ∧ Event.decodeImage ∈
        (convert_png_to_bin "img.png" (some demoRaster) "data/img" 2 (some "QQQQQQ")).trace
    ∧ writtenFiles (convert_png_to_bin "img.png" (some demoRaster) "data/img" 2 (some "QQQQQQ")) = [] :=
  bg_invalid_after_decode "img.png" "data/img" demoRaster 2 "QQQQQQ" (by decide) (by decide)

/- ### C8: output file naming -/

/-- C8: a successful run with `rows = N` writes exactly `N` files named
`base ++ i ++ ".bin"` for `i` in `0..N-1`, where `main` takes `base` from
`--output` when given and `"data/" ++ input.rsplit('.', 1)[0]` otherwise. -/
theorem output_file_names (inp : String) (img : Raster) (rows : Int)
    (out bg : Option String) (tc : Nat × Nat × Nat)
    (hrows : 1 ≤ rows) (htc : resolveColor bg = some tc) :
    ((writtenFiles (mainRun inp (some img) rows out bg)).map Prod.fst
      = (List.range rows.toNat).map
          (fun i => mainOutputBase inp out ++ toString i ++ ".bin"))
    ∧ (writtenFiles (mainRun inp (some img) rows out bg)).length = rows.toNat
    ∧ (∀ o, mainOutputBase inp (some o) = o)
    ∧ mainOutputBase inp none = "data/" ++ pyRsplitExt inp := by
  have h := convert_success_eq inp (mainOutputBase inp out) img rows bg tc hrows htc
  rw [mainRun, h, writtenFiles_trace_map]
  refine ⟨?_, ?_, fun o => rfl, rfl⟩
  · rw [List.map_map]
    rfl
  · rw [List.length_map, List.length_range]

/-- Witness for C8 with `rows = 2`, no `--output`, default background. -/
theorem output_file_names_witness :
    ((writtenFiles (mainRun "duck.png" (some demoRaster) 2 none none)).map Prod.fst
      = (List.range (2 : Int).toNat).map
          (fun i => mainOutputBase "duck.png" none ++ toString i ++ ".bin"))
    ∧ (writtenFiles (mainRun "duck.png" (some demoRaster) 2 none none)).length
        = (2 : Int).toNat :=
  ⟨(output_file_names "duck.png" demoRaster 2 none none (48, 144, 160)
      (by decide) rfl).1,
   (output_file_names "duck.png" demoRaster 2 none none (48, 144, 160)
      (by decide) rfl).2.1⟩

/- ### C9: image shorter than rows -/

/-- C9: when the decoded height is positive but below `rows`,
`frame_height` truncates to 0, yet the run exits 0 with no error and
writes all `rows` files, each empty. -/
theorem short_image_empty_frames (inp base : String) (img : Raster) (rows : Int)
    (bg : Option String) (tc : Nat × Nat × Nat)
    (hrows : 1 ≤ rows) (hpos : 0 < img.height) (hlt : img.height < rows.toNat)
    (htc : resolveColor bg = some tc) :
    (convert_png_to_bin inp (some img) base rows bg).exitCode = 0
    ∧ (convert_png_to_bin inp (some img) base rows bg).errorMsg = none
    ∧ writtenFiles (convert_png_to_bin inp (some img) base rows bg)
        = (List.range rows.toNat).map (fun i => (base ++ toString i ++ ".bin", [])) := by
  have hfh : img.height / rows.toNat = 0 := Nat.div_eq_of_lt hlt
  rw [convert_success_eq inp base img rows bg tc hrows htc]
  refine ⟨rfl, rfl, ?_⟩
  rw [writtenFiles_trace_map]
  simp only [hfh, Nat.mul_zero, emitFrame_zero]

/-- A concrete 3 × 1 opaque raster, shorter than two rows. -/
def shortRaster : Raster :=
  { width := 3, height := 1, pixel := fun _ _ => (0, 0, 0, 255) }

/-- Witness for C9: height 1, `rows = 2` gives two empty files. -/
theorem short_image_empty_frames_witness :
    (convert_png_to_bin "s.png" (some shortRaster) "o" 2 none).exitCode = 0
    ∧ (convert_png_to_bin "s.png" (some shortRaster) "o" 2 none).errorMsg = none
    ∧ writtenFiles (convert_png_to_bin "s.png" (some shortRaster) "o" 2 none)
        = (List.range (2 : Int).toNat).map (fun i => ("o" ++ toString i ++ ".bin", [])) :=
  short_image_empty_frames "s.png" "o" shortRaster 2 none (48, 144, 160)
    (by decide) (by decide) (by decide) rfl

/- ### C10: leniency of hex_to_rgb -/

/-- C10: `hex_to_rgb` strips every leading `#` and reads only the first
six remaining characters: whenever those six are hex digits it returns
the three byte values, whatever follows; in particular `"##3090A0"` and
`"3090A0FF"` are accepted. -/
theorem hex_parse_lenient (s : String) (c0 c1 c2 c3 c4 c5 : Char) (rest : List Char)
    (d0 d1 d2 d3 d4 d5 : Nat)
    (hcs : s.toList.dropWhile (fun c => c = '#')
      = c0 :: c1 :: c2 :: c3 :: c4 :: c5 :: rest)
    (h0 : hexDigitVal c0 = some d0) (h1 : hexDigitVal c1 = some d1)
    (h2 : hexDigitVal c2 = some d2) (h3 : hexDigitVal c3 = some d3)
    (h4 : hexDigitVal c4 = some d4) (h5 : hexDigitVal c5 = some d5) :
    hex_to_rgb s = some (d0 * 16 + d1, d2 * 16 + d3, d4 * 16 + d5)
    ∧ hex_to_rgb "##3090A0" = some (48, 144, 160)
    ∧ hex_to_rgb "3090A0FF" = some (48, 144, 160) := by
  refine ⟨?_, by decide, by decide⟩
  unfold hex_to_rgb
  rw [hcs]
  simp only [List.drop, List.take, pyIntHex, h0, h1, h2, h3, h4, h5]

/-- Witness for C10 at the mixed-case input `"0A1b2C"`. -/
theorem hex_parse_lenient_witness :
    hex_to_rgb "0A1b2C" = some (0 * 16 + 10, 1 * 16 + 11, 2 * 16 + 12) :=
  (hex_parse_lenient "0A1b2C" '0' 'A' '1' 'b' '2' 'C' [] 0 10 1 11 2 12
    (by decide) rfl rfl rfl rfl rfl rfl).1
